import Mathlib

/-!
Verification development for the DocuScan browser client
(`src/static/script.js`, second script variant, which is the one the page
loads: globals `currentImageData` / `processedImageBlob` /
`processedImageBase64` and functions `handleImageFile`, `processImage`,
`resetTool`, `formatFileSize`, `convertImageToPNG`,
`writeToClipboardWithFallback`, `copyImageAsFile`).

The JavaScript is shallowly embedded: every definition below mirrors one
function or code path of the source.  DOM visibility of the main panels is
abstracted into an explicit `Phase`; the jQuery AJAX call is modelled as a
list of outstanding `Request`s plus handler functions applied when a
request resolves.  JavaScript string primitives that do not kernel-reduce
in Lean (`startsWith`, `indexOf`, `split`) are re-implemented on character
lists with the same semantics.  Number formatting (`toFixed(1)` followed by
`parseFloat`) is modelled with exact rational rounding: `toFixed(1)` rounds
half-up to one decimal and `parseFloat` drops a trailing `.0`.
-/

namespace DocuScan

/-! String helpers mirroring the JavaScript string primitives used by the
client.  They operate on `List Char` so that concrete instances reduce in
the kernel. -/

/-- List-level prefix test; models JavaScript `String.prototype.startsWith`. -/
def hasPrefixL : List Char → List Char → Bool
  | [], _ => true
  | _ :: _, [] => false
  | a :: as, b :: bs => a = b && hasPrefixL as bs

/-- Model of `s.startsWith(p)` from JavaScript. -/
def jsStartsWith (s p : String) : Bool := hasPrefixL p.toList s.toList

/-- Substring occurrence on character lists. -/
def hasSubstringL (needle : List Char) : List Char → Bool
  | [] => hasPrefixL needle []
  | c :: rest => hasPrefixL needle (c :: rest) || hasSubstringL needle rest

/-- Model of JavaScript `s.indexOf(sub) !== -1`. -/
def jsContains (s sub : String) : Bool := hasSubstringL sub.toList s.toList

/-- Characters of the second field of `m.split('/')`: the characters after
the first `'/'` up to (not including) the next `'/'`; `none` when the
string has no `'/'` at all (JavaScript `split` then yields a one-element
array and index `[1]` is `undefined`). -/
def splitSecondL : List Char → Option (List Char)
  | [] => none
  | c :: rest => if c = '/' then some (rest.takeWhile (fun ch => ch ≠ '/')) else splitSecondL rest

/-! Data model.  `JsFile` is the browser `File` object as the client reads
it; `Blob` is a binary payload tagged with a MIME type, its bytes
abstracted to a single `Nat`. -/

/-- Browser `File`: declared MIME type, byte length, and name. -/
structure JsFile where
  type : String
  size : Nat
  name : String
deriving Repr, DecidableEq

/-- Browser `Blob`: declared MIME type plus (abstracted) payload bytes. -/
structure Blob where
  type : String
  bytes : Nat
deriving Repr, DecidableEq

/-- Session phase, the spec's abstraction of which main panel the script
makes visible: `Idle` (upload area + no-image placeholder), `Loaded`
(original image container), `Processing` (processing container), `Result`
(processed image container), `Failed` (no-image placeholder after an AJAX
error). -/
inductive Phase
  | Idle
  | Loaded
  | Processing
  | Result
  | Failed
deriving Repr, DecidableEq

/-- One outstanding `$.ajax` POST to `/process-image`: the `img` payload
(the data URI sent) and the `timeout` option in milliseconds. -/
structure Request where
  img : String
  timeoutMs : Nat
deriving Repr, DecidableEq

/-- The script's three session globals plus the phase abstraction:
`currentImageData` (data URI of the original), `processedImageBlob` and
`processedImageBase64` (the result), and the current `Phase`. -/
structure ClientState where
  currentImageData : Option String
  processedImageBlob : Option Blob
  processedImageBase64 : Option String
  phase : Phase
deriving Repr, DecidableEq

/-- Whole client configuration: session state, the list of outstanding
AJAX requests (in issue order), and the `#errorAlert` message (`none` when
the alert is hidden). -/
structure Config where
  st : ClientState
  inflight : List Request
  errorAlert : Option String
deriving Repr, DecidableEq

/-- State on page load: no image, no result, alert hidden, nothing in
flight. -/
def initialConfig : Config :=
  { st := { currentImageData := none, processedImageBlob := none,
            processedImageBase64 := none, phase := Phase.Idle },
    inflight := [], errorAlert := none }

/-! Size formatting (`formatFileSize`, script.js:1133-1139). -/

/-- Unit list `['B', 'KB', 'MB', 'GB']` from `formatFileSize`. -/
def sizeUnits : List String := ["B", "KB", "MB", "GB"]

/-- Index `i = Math.floor(Math.log(bytes) / Math.log(1024))`. -/
def unitIndex (bytes : Nat) : Nat := Nat.log 1024 bytes

/-- Value of `(bytes / Math.pow(1024, i)).toFixed(1)` in tenths: the
rational `bytes / 1024 ^ i` rounded half-up to the nearest tenth, scaled by
ten.  `(20 * bytes + p) / (2 * p)` is `⌊10 * bytes / p + 1 / 2⌋`. -/
def tenthsValue (bytes : Nat) : Nat :=
  (20 * bytes + 1024 ^ unitIndex bytes) / (2 * 1024 ^ unitIndex bytes)

/-- Decimal rendering of a number given in tenths, with `parseFloat`'s
removal of a trailing `.0`. -/
def renderTenths (t : Nat) : String :=
  if t % 10 = 0 then toString (t / 10)
  else toString (t / 10) ++ "." ++ toString (t % 10)

/-- Unit component of the formatted string: `sizes[i]`, which JavaScript
evaluates to `undefined` (rendered as the string `"undefined"` by `+`)
when `i` falls outside the four-element list. -/
def unitComponent (bytes : Nat) : String :=
  (sizeUnits.get? (unitIndex bytes)).getD ("undefined")

/-- Model of `formatFileSize` (script.js:1133-1139). -/
def formatFileSize (bytes : Nat) : String :=
  if bytes = 0 then "0 B"
  else renderTenths (tenthsValue bytes) ++ " " ++ unitComponent bytes

/-! Acquisition (`handleImageFile`, script.js:726-761, and the paste /
drop / file-pick entry points of `initializeEventListeners`,
script.js:597-645). -/

/-- Upload size limit `maxSize = 10 * 1024 * 1024` (script.js:734). -/
def maxSize : Nat := 10 * 1024 * 1024

/-- Wrong-type message of `handleImageFile` (script.js:729). -/
def wrongTypeMsg : String := "请选择有效的图片文件"

/-- Oversize message of `handleImageFile` (script.js:736); it embeds
`formatFileSize(file.size)`. -/
def tooLargeMsg (size : Nat) : String :=
  "图片文件过大：" ++ formatFileSize size ++ "，请选择小于10MB的图片"

/-- Wrong-type message of the drop handler (script.js:643). -/
def dropWrongTypeMsg : String := "请拖拽有效的图片文件"

/-- Read-error message of the `FileReader.onerror` handler (script.js:756). -/
def readErrorMsg : String := "读取图片文件时发生错误，请重试"

/-- Outcome of one `handleImageFile` call: rejected by the type check,
rejected by the size check, or accepted with the `FileReader` started. -/
inductive AcquireOutcome
  | wrongType
  | tooLarge
  | readStarted
deriving Repr, DecidableEq

/-- Model of `showError` (script.js:1008): sets the `#errorAlert` text and
shows it.  It touches no session global and no panel visibility. -/
def showErrorC (msg : String) (c : Config) : Config := { c with errorAlert := some msg }

/-- Model of `hideAlerts` (script.js:1035). -/
def hideAlertsC (c : Config) : Config := { c with errorAlert := none }

/-- Model of `handleImageFile` (script.js:726-761) up to starting the
`FileReader`: the type check, the size check, and otherwise the start of
the asynchronous read.  Neither rejection branch touches the session
globals, panel visibility, or the network. -/
def handleImageFile (file : JsFile) (c : Config) : Config × AcquireOutcome :=
  if ¬ jsStartsWith file.type ("image/") then
    (showErrorC wrongTypeMsg c, AcquireOutcome.wrongType)
  else if maxSize < file.size then
    (showErrorC (tooLargeMsg file.size) c, AcquireOutcome.tooLarge)
  else
    (c, AcquireOutcome.readStarted)

/-- Model of `showOriginalImage` (script.js:778-792): hides the upload
area and shows the original-image container, i.e. moves the phase to
`Loaded`. -/
def showOriginalImageStep (c : Config) : Config :=
  { c with st := { c.st with phase := Phase.Loaded } }

/-- Model of `processImage` (script.js:802-866) up to issuing the AJAX
request: bails with an error when no image is loaded; otherwise shows the
processing container, hides alerts, and issues exactly one POST carrying
`currentImageData` with a 60000 ms timeout. -/
def processImage (c : Config) : Config :=
  match c.st.currentImageData with
  | none => showErrorC ("请先选择或粘贴图片") c
  | some img =>
      { c with st := { c.st with phase := Phase.Processing },
               inflight := c.inflight ++ [{ img := img, timeoutMs := 60000 }],
               errorAlert := none }

/-- Model of the `FileReader.onload` handler inside `handleImageFile`
(script.js:744-753): stores the decoded data URI in `currentImageData`,
hides alerts, shows the original image (`Loaded`), and immediately calls
`processImage`. -/
def readerOnLoad (dataUrl : String) (c : Config) : Config :=
  processImage (showOriginalImageStep
    (hideAlertsC { c with st := { c.st with currentImageData := some dataUrl } }))

/-- Model of the `FileReader.onerror` handler (script.js:755-758). -/
def readerOnError (c : Config) : Config := showErrorC readErrorMsg c

/-- A `DataTransferItem` from the paste event: its declared type and the
`File` that `getAsFile()` returns. -/
structure ClipboardDataItem where
  type : String
  file : JsFile
deriving Repr, DecidableEq

/-- Model of the paste handler (script.js:599-609): scan the clipboard
items for the first whose type contains the substring `image`
(`indexOf('image') !== -1`), hand its file to `handleImageFile`, and stop.
Items without that substring are skipped silently; if none matches,
nothing at all happens. -/
def pasteHandler (items : List ClipboardDataItem) (c : Config) : Config × Option AcquireOutcome :=
  match items.find? (fun it => jsContains it.type ("image")) with
  | none => (c, none)
  | some it =>
      let r := handleImageFile it.file c
      (r.1, some r.2)

/-- Model of the drop handler (script.js:635-645): the first dropped file
is handed to `handleImageFile` only when its type starts with `image/`;
otherwise (or when no file was dropped) a drop-specific wrong-type error is
shown. -/
def dropHandler (files : List JsFile) (c : Config) : Config × Option AcquireOutcome :=
  match files.head? with
  | some f =>
      if jsStartsWith f.type ("image/") then
        let r := handleImageFile f c
        (r.1, some r.2)
      else (showErrorC dropWrongTypeMsg c, none)
  | none => (showErrorC dropWrongTypeMsg c, none)

/-- Model of the file-input change handler (script.js:617-622). -/
def fileInputChange (files : List JsFile) (c : Config) : Config × Option AcquireOutcome :=
  match files.head? with
  | some f =>
      let r := handleImageFile f c
      (r.1, some r.2)
  | none => (c, none)

/-! AJAX resolution (`processImage` handlers, script.js:825-866, and
`handleProcessingError`, script.js:888-909). -/

/-- Model of `FileReader.readAsDataURL` applied to a response blob. -/
def blobToDataUrl (b : Blob) : String :=
  "data:" ++ b.type ++ ";base64," ++ toString b.bytes

/-- Model of the AJAX `success` handler (script.js:825-853) together with
the nested `FileReader.onload`: stores the response blob and its base64
form in the result globals and shows the processed-image container
(`Result`).  The handler consults nothing about which image originated the
request. -/
def ajaxSuccess (data : Blob) (c : Config) : Config :=
  { c with st := { c.st with processedImageBlob := some data,
                             processedImageBase64 := some (blobToDataUrl data),
                             phase := Phase.Result } }

/-- Transport outcome of a failed AJAX call: the jQuery `timeout` status,
or an HTTP/connection failure with a status code and response body. -/
inductive ResponseBody
  | unparsable
  | json (detail : Option String)
deriving Repr, DecidableEq

/-- Failure as seen by the `error` handler. -/
inductive AjaxFailure
  | timeout
  | http (status : Nat) (body : ResponseBody)
deriving Repr, DecidableEq

/-- Timeout branch message of `handleProcessingError` (script.js:892). -/
def timeoutMsg : String := "⏰ 请求超时，图片可能过大或网络较慢，请重试"

/-- Model of `handleProcessingError` (script.js:888-909): the `if` chain
mapping transport outcomes to user-facing messages. -/
def processingErrorMessage : AjaxFailure → String
  | AjaxFailure.timeout => timeoutMsg
  | AjaxFailure.http status body =>
      if status = 413 then "📏 图片文件太大，请选择较小的图片（建议小于5MB）"
      else if status = 400 then
        match body with
        | ResponseBody.json (some detail) => detail
        | ResponseBody.json none => "处理图片时发生错误"
        | ResponseBody.unparsable => "❌ 图片格式不支持或文件损坏"
      else if status = 0 then "🌐 网络连接错误，请检查网络后重试"
      else if 500 ≤ status then "🔧 服务器暂时不可用，请稍后重试"
      else "处理图片时发生错误"

/-- Model of the AJAX `error` handler (script.js:855-862): hides the
processing and result containers, shows the no-image placeholder
(`Failed`), and surfaces the mapped message.  The result globals are left
untouched. -/
def ajaxError (f : AjaxFailure) (c : Config) : Config :=
  { c with st := { c.st with phase := Phase.Failed },
           errorAlert := some (processingErrorMessage f) }

/-- Resolution of the `i`-th outstanding request with a success response:
the request leaves the in-flight list and the success handler runs. -/
def deliverSuccess (i : Nat) (data : Blob) (c : Config) : Config :=
  { ajaxSuccess data c with inflight := c.inflight.eraseIdx i }

/-- Resolution of the `i`-th outstanding request with a failure: the
request leaves the in-flight list and the error handler runs.  No new
request is issued (the script has no retry path). -/
def deliverFailure (i : Nat) (f : AjaxFailure) (c : Config) : Config :=
  { ajaxError f c with inflight := c.inflight.eraseIdx i }

/-- Model of `resetTool` (script.js:970-1005): nulls the three session
globals, restores the upload area and the no-image placeholder (`Idle`),
and hides the alerts.  It does not abort outstanding requests. -/
def resetTool (c : Config) : Config :=
  { c with st := { currentImageData := none, processedImageBlob := none,
                   processedImageBase64 := none, phase := Phase.Idle },
           errorAlert := none }

/-! Clipboard export (`convertImageToPNG`, script.js:1172-1208;
`writeToClipboardWithFallback`, script.js:1211-1273; `copyImageAsFile`,
script.js:1294-1394).  The browser clipboard and the canvas encoder are
the external boundary: a `Platform` says which MIME tags
`navigator.clipboard.write` accepts and whether / how the canvas PNG
re-encode succeeds. -/

/-- External platform behaviour: clipboard acceptance per MIME tag, and
the canvas PNG re-encoder (`canvas.toBlob(..., 'image/png', 1.0)`), which
either fails (image decode failure or a `null` blob) or deterministically
re-encodes the payload bytes. -/
structure Platform where
  accepts : String → Bool
  pngEncodeOk : Bool
  encodePng : Nat → Nat

/-- Model of `convertImageToPNG` (script.js:1172-1208): decode the blob on
a canvas and re-encode as PNG at quality 1.0; `none` models the rejected
promise (load failure or `null` result). -/
def convertImageToPNG (pf : Platform) (b : Blob) : Option Blob :=
  if pf.pngEncodeOk then some { type := "image/png", bytes := pf.encodePng b.bytes }
  else none

/-- Fixed list `supportedTypes` of `writeToClipboardWithFallback`
(script.js:1212-1217). -/
def supportedTypes : List String := ["image/png", "image/jpeg", "image/webp", "image/gif"]

/-- Result of one `writeToClipboardWithFallback` call: the MIME tags under
which `navigator.clipboard.write` was attempted, in order, and the tag of
the successful write (`none` when every attempt was rejected, i.e. the
function threw). -/
structure WriteResult where
  attempts : List String
  written : Option String
deriving Repr, DecidableEq

/-- Residual-format sweep, the final `for` loop of
`writeToClipboardWithFallback` (script.js:1247-1269): skip the type
already tried natively and PNG; skip any type for which no conversion
exists (`type !== blob.type`, since only the PNG conversion is
implemented); otherwise attempt the write. -/
def sweepGo (pf : Platform) (blob : Blob) (mimeType : String) :
    List String → List String × Option String
  | [] => ([], none)
  | t :: ts =>
      if t = mimeType ∨ t = "image/png" then sweepGo pf blob mimeType ts
      else if t = blob.type then
        if pf.accepts t then ([t], some t)
        else
          let r := sweepGo pf blob mimeType ts
          (t :: r.1, r.2)
      else sweepGo pf blob mimeType ts

/-- Model of `writeToClipboardWithFallback` (script.js:1211-1273): first
the write tagged with the given `mimeType`; if rejected and the tag is not
already `image/png`, re-encode through `convertImageToPNG` and attempt a
PNG-tagged write (no clipboard attempt when the conversion itself fails);
finally the residual sweep.  `written = none` models the terminal
`throw`. -/
def writeToClipboardWithFallback (pf : Platform) (blob : Blob) (mimeType : String) :
    WriteResult :=
  if pf.accepts mimeType then { attempts := [mimeType], written := some mimeType }
  else
    let png : List String × Option String :=
      if mimeType = "image/png" then ([], none)
      else
        match convertImageToPNG pf blob with
        | some _ =>
            if pf.accepts ("image/png") then ([("image/png" : String)], some ("image/png" : String))
            else ([("image/png" : String)], none)
        | none => ([], none)
    match png.2 with
    | some w => { attempts := mimeType :: png.1, written := some w }
    | none =>
        let sw := sweepGo pf blob mimeType supportedTypes
        { attempts := mimeType :: (png.1 ++ sw.1), written := sw.2 }

/-- Extension derivation `finalMimeType.split('/')[1] || 'png'` from
`copyImageAsFile` (script.js:1335): the second `split` field when present
and non-empty (both `undefined` and the empty string are falsy), else
`png`. -/
def extensionOf (m : String) : String :=
  match splitSecondL m.toList with
  | none => "png"
  | some cs => if cs.isEmpty then "png" else String.mk cs

/-- Name stem selection of `copyImageAsFile` (script.js:1336-1337). -/
def stemOf (imageType : String) : String :=
  if imageType = "processed" then "docuscan_enhanced"
  else if imageType = "original" then "docuscan_original"
  else "docuscan_image"

/-- Outcome of one `copyImageAsFile` call: the file name reported in the
success toast (`none` when the export failed), the clipboard-write
attempts made, and the MIME tag actually written. -/
structure ExportOutcome where
  filename : Option String
  attempts : List String
  written : Option String
deriving Repr, DecidableEq

/-- Model of `copyImageAsFile` (script.js:1294-1394): fetch the source
into a blob; if the blob is JPEG (`image/jpeg` or `image/jpg`),
pre-convert it to PNG before any clipboard attempt (a conversion failure
propagates to the outer catch, so no write is attempted); derive the
reported file name from the resulting `finalMimeType`; then run
`writeToClipboardWithFallback`.  The name is fixed before the fallback
chain runs. -/
def copyImageAsFile (pf : Platform) (blob : Blob) (imageType : String) (timestamp : String) :
    ExportOutcome :=
  let conv : Option (Blob × String) :=
    if blob.type = "image/jpeg" ∨ blob.type = "image/jpg" then
      match convertImageToPNG pf blob with
      | some b => some (b, "image/png")
      | none => none
    else some (blob, blob.type)
  match conv with
  | none => { filename := none, attempts := [], written := none }
  | some (finalBlob, finalMimeType) =>
      let filename := stemOf imageType ++ "_" ++ timestamp ++ "." ++ extensionOf finalMimeType
      let w := writeToClipboardWithFallback pf finalBlob finalMimeType
      match w.written with
      | some m => { filename := some filename, attempts := w.attempts, written := some m }
      | none => { filename := none, attempts := w.attempts, written := none }

/-! Concrete instances used in the closed theorems below. -/

/-- Platform whose clipboard accepts every MIME tag and whose PNG encoder
works. -/
def pfAcceptAll : Platform :=
  { accepts := fun _ => true, pngEncodeOk := true, encodePng := fun n => n }

/-- Platform whose clipboard accepts only PNG-tagged writes (the common
real-browser behaviour the fallback chain exists for). -/
def pfOnlyPng : Platform :=
  { accepts := fun m => m = "image/png", pngEncodeOk := true, encodePng := fun n => n }

/-- A non-image file, as delivered by a paste of plain text. -/
def plainFile : JsFile := { type := "text/plain", size := 5, name := "n.txt" }

/-- Clipboard item wrapping `plainFile`. -/
def plainItem : ClipboardDataItem := { type := "text/plain", file := plainFile }

/-- A 1 TiB image file (oversize, and past the end of the unit list). -/
def hugeFile : JsFile := { type := "image/png", size := 1024 ^ 4, name := "huge.png" }

/-- Data URI of a first acquired image. -/
def urlA : String := "data:image/png;base64,AA"

/-- Data URI of a second acquired image. -/
def urlB : String := "data:image/jpeg;base64,BB"

/-- A response blob for the request originated by `urlA`. -/
def respA : Blob := { type := "image/jpeg", bytes := 7 }

/-- A configuration with one request outstanding. -/
def procConfig : Config :=
  { st := { currentImageData := some urlA, processedImageBlob := none,
            processedImageBase64 := none, phase := Phase.Processing },
    inflight := [{ img := urlA, timeoutMs := 60000 }], errorAlert := none }

/-! Helper lemmas (shared between the claim theorems below). -/

/-- Nat.log value used to evaluate `formatFileSize` at 12 MiB. -/
theorem log_12582912 : Nat.log 1024 12582912 = 2 :=
  Nat.log_eq_of_pow_le_of_lt_pow (by norm_num) (by norm_num)

/-- Unit index of 12 MiB. -/
theorem unitIndex_12582912 : unitIndex 12582912 = 2 := by
  rw [unitIndex.eq_def]; exact log_12582912

/-- Tenths value of 12 MiB: exactly 12.0. -/
theorem tenths_12582912 : tenthsValue 12582912 = 120 := by
  rw [tenthsValue.eq_def, unitIndex_12582912]; norm_num

/-- Unit of 12 MiB. -/
theorem unitComp_12582912 : unitComponent 12582912 = "MB" := by
  rw [unitComponent.eq_def, unitIndex_12582912]; decide

/-- Formatted 12 MiB; `parseFloat` drops the trailing `.0`. -/
theorem format_12582912 : formatFileSize 12582912 = "12 MB" := by
  rw [formatFileSize.eq_def, if_neg (by norm_num), tenths_12582912, unitComp_12582912]
  decide

/-- Nat.log value at exactly 1 TiB. -/
theorem log_tib : Nat.log 1024 (1024 ^ 4) = 4 := Nat.log_pow (by norm_num) 4

/-- Unit index of 1 TiB: one past the end of the unit list. -/
theorem unitIndex_tib : unitIndex (1024 ^ 4) = 4 := by
  rw [unitIndex.eq_def]; exact log_tib

/-- Tenths value of 1 TiB. -/
theorem tenths_tib : tenthsValue (1024 ^ 4) = 10 := by
  rw [tenthsValue.eq_def, unitIndex_tib]; norm_num

/-- Unit component of 1 TiB is the out-of-range placeholder. -/
theorem unitComp_tib : unitComponent (1024 ^ 4) = "undefined" := by
  rw [unitComponent.eq_def, unitIndex_tib]; decide

/-- Formatted 1 TiB: the JavaScript renders `"1 undefined"`. -/
theorem format_tib : formatFileSize (1024 ^ 4) = "1 undefined" := by
  rw [formatFileSize.eq_def, if_neg (by positivity), tenths_tib, unitComp_tib]
  decide

/-- Below 1 TiB the unit component really is one of the four binary
units. -/
theorem unitComponent_valid (n : Nat) (h0 : 0 < n) (h4 : n < 1024 ^ 4) :
    unitComponent n ∈ sizeUnits := by
  have hlog : Nat.log 1024 n < 4 := Nat.log_lt_of_lt_pow (Nat.pos_iff_ne_zero.1 h0) h4
  have hlt : unitIndex n < sizeUnits.length := by
    rw [unitIndex.eq_def]
    simpa [sizeUnits] using hlog
  rw [unitComponent.eq_def, List.get?_eq_get hlt]
  exact List.get_mem sizeUnits (unitIndex n) hlt

/-- At and above 1 TiB the unit lookup falls off the list and the rendered
string carries the placeholder. -/
theorem units_overflow (b : Nat) (h : 1024 ^ 4 ≤ b) :
    sizeUnits.get? (unitIndex b) = none ∧ unitComponent b = "undefined" ∧
    formatFileSize b = renderTenths (tenthsValue b) ++ " " ++ "undefined" := by
  have hb0 : b ≠ 0 := by positivity
  have h4 : 4 ≤ unitIndex b := by
    rw [unitIndex.eq_def]
    exact (Nat.pow_le_iff_le_log (by norm_num) hb0).1 h
  have hnone : sizeUnits.get? (unitIndex b) = none :=
    List.get?_eq_none.2 (by simpa [sizeUnits] using h4)
  have hu : unitComponent b = "undefined" := by
    rw [unitComponent.eq_def, hnone]; rfl
  refine ⟨hnone, hu, ?_⟩
  rw [formatFileSize.eq_def, if_neg hb0, hu]

/-- Wrong-type branch of `handleImageFile`: error shown, nothing else
touched. -/
theorem handleImageFile_wrongType (f : JsFile) (c : Config)
    (h : jsStartsWith f.type ("image/") = false) :
    handleImageFile f c = (showErrorC wrongTypeMsg c, AcquireOutcome.wrongType) := by
  rw [handleImageFile.eq_def, h]
  simp

/-- Oversize branch of `handleImageFile`: error with the formatted size,
nothing else touched. -/
theorem handleImageFile_tooLarge (f : JsFile) (c : Config)
    (himg : jsStartsWith f.type ("image/") = true) (hsz : maxSize < f.size) :
    handleImageFile f c = (showErrorC (tooLargeMsg f.size) c, AcquireOutcome.tooLarge) := by
  rw [handleImageFile.eq_def, himg]
  simp [hsz]

/-- The residual sweep never writes when the attempted tag equals the
blob's own type: every supported type is skipped as already tried or as
having no conversion path. -/
theorem sweepGo_self (pf : Platform) (blob : Blob) (ts : List String) :
    sweepGo pf blob blob.type ts = ([], none) := by
  induction ts with
  | nil => rfl
  | cons t ts ih =>
      simp only [sweepGo]
      by_cases h1 : t = blob.type ∨ t = "image/png"
      · rw [if_pos h1]
        exact ih
      · rw [if_neg h1]
        rw [if_neg (fun hh => h1 (Or.inl hh))]
        exact ih

/-- Closed form of `writeToClipboardWithFallback` when called, as
`copyImageAsFile` always does, with the blob's own MIME tag: the native
attempt, then at most one PNG re-encode attempt, and a vacuous sweep. -/
theorem write_self_cases (pf : Platform) (blob : Blob) :
    writeToClipboardWithFallback pf blob blob.type =
      if pf.accepts blob.type then { attempts := [blob.type], written := some blob.type }
      else if blob.type = "image/png" then { attempts := [blob.type], written := none }
      else if pf.pngEncodeOk then
        if pf.accepts ("image/png") then
          { attempts := [blob.type, "image/png"], written := some ("image/png") }
        else { attempts := [blob.type, "image/png"], written := none }
      else { attempts := [blob.type], written := none } := by
  simp only [writeToClipboardWithFallback]
  by_cases hacc : pf.accepts blob.type
  · simp [hacc]
  · rw [if_neg hacc, if_neg hacc]
    by_cases hpng : blob.type = "image/png"
    · rw [if_pos hpng, if_pos hpng]
      simp [sweepGo_self]
    · rw [if_neg hpng, if_neg hpng]
      simp only [convertImageToPNG]
      by_cases henc : pf.pngEncodeOk
      · rw [if_pos henc, if_pos henc]
        by_cases haccp : pf.accepts ("image/png")
        · simp [haccp]
        · simp [haccp, sweepGo_self]
      · rw [if_neg henc, if_neg henc]
        simp [sweepGo_self]

/-- For a non-JPEG source `copyImageAsFile` forwards the blob unchanged:
its attempts and written tag are those of the write chain, and the
reported name carries the source-derived extension whenever the chain
succeeded. -/
theorem copy_nonjpeg (pf : Platform) (blob : Blob) (it ts : String)
    (hj : ¬ (blob.type = "image/jpeg" ∨ blob.type = "image/jpg")) :
    (copyImageAsFile pf blob it ts).attempts =
        (writeToClipboardWithFallback pf blob blob.type).attempts ∧
    (copyImageAsFile pf blob it ts).written =
        (writeToClipboardWithFallback pf blob blob.type).written ∧
    (copyImageAsFile pf blob it ts).filename =
        (if (writeToClipboardWithFallback pf blob blob.type).written.isSome then
          some (stemOf it ++ "_" ++ ts ++ "." ++ extensionOf blob.type) else none) := by
  simp only [copyImageAsFile]
  rw [if_neg hj]
  cases hw : (writeToClipboardWithFallback pf blob blob.type).written <;> simp [hw]

/-- For a JPEG source with a working encoder, the pre-conversion makes the
whole export a single PNG-tagged attempt, named with the `.png`-yielding
MIME. -/
theorem copy_jpeg (pf : Platform) (blob : Blob) (it ts : String)
    (hj : blob.type = "image/jpeg" ∨ blob.type = "image/jpg") (henc : pf.pngEncodeOk = true) :
    (copyImageAsFile pf blob it ts).attempts = [("image/png" : String)] ∧
    ((copyImageAsFile pf blob it ts).written =
        if pf.accepts ("image/png") then some ("image/png") else none) ∧
    ((copyImageAsFile pf blob it ts).filename =
        if pf.accepts ("image/png") then
          some (stemOf it ++ "_" ++ ts ++ "." ++ extensionOf ("image/png")) else none) := by
  simp only [copyImageAsFile, convertImageToPNG]
  rw [if_pos hj, if_pos henc]
  have hw := write_self_cases pf { type := "image/png", bytes := pf.encodePng blob.bytes }
  simp at hw
  by_cases haccp : pf.accepts ("image/png")
  · simp [haccp, hw]
  · simp [haccp, hw]

/-- For a JPEG source whose pre-conversion fails, the export throws before
any clipboard attempt. -/
theorem copy_jpeg_fail (pf : Platform) (blob : Blob) (it ts : String)
    (hj : blob.type = "image/jpeg" ∨ blob.type = "image/jpg") (henc : pf.pngEncodeOk = false) :
    copyImageAsFile pf blob it ts =
      { filename := none, attempts := [], written := none } := by
  simp only [copyImageAsFile, convertImageToPNG]
  rw [if_pos hj, henc]
  simp

/-! Claim theorems. -/

/-- C1: the claim states that a late AJAX resolution for a superseded
image never stores a result and never moves the session to `Result`.  The
code has no such guard: after acquiring `urlA` (request 0 outstanding) and
then `urlB` (request 1 outstanding, `currentImageData = urlB`), delivering
the response of the stale request 0 runs the unconditional success handler,
which stores the stale blob and shows the `Result` panel against image B's
original. -/
theorem stale_resolution_overwrites_session :
    (readerOnLoad urlB (readerOnLoad urlA initialConfig)).inflight.get? 0 =
      some { img := urlA, timeoutMs := 60000 } ∧
    (readerOnLoad urlB (readerOnLoad urlA initialConfig)).st.currentImageData = some urlB ∧
    urlA ≠ urlB ∧
    (deliverSuccess 0 respA (readerOnLoad urlB (readerOnLoad urlA initialConfig))).st.phase =
      Phase.Result ∧
    (deliverSuccess 0 respA
        (readerOnLoad urlB (readerOnLoad urlA initialConfig))).st.processedImageBlob =
      some respA ∧
    (deliverSuccess 0 respA
        (readerOnLoad urlB (readerOnLoad urlA initialConfig))).st.currentImageData =
      some urlB := by decide

/-- C2 counterexample: after a completed session for `urlA` (phase
`Result`, result stored), acquiring `urlB` leaves the old result in place:
the session is in `Processing` for B while `processedImageBlob` still
holds A's result, and a subsequent failure moves to `Failed` with the
result still present — so the result is not confined to `Result` and the
new acquisition does not discard the prior session wholesale. -/
theorem result_carryover_counterexample :
    (readerOnLoad urlB (deliverSuccess 0 respA (readerOnLoad urlA initialConfig))).st.phase =
      Phase.Processing ∧
    (readerOnLoad urlB
        (deliverSuccess 0 respA (readerOnLoad urlA initialConfig))).st.processedImageBlob =
      some respA ∧
    (readerOnLoad urlB
        (deliverSuccess 0 respA (readerOnLoad urlA initialConfig))).st.currentImageData =
      some urlB ∧
    (deliverFailure 0 (AjaxFailure.http 500 ResponseBody.unparsable)
        (readerOnLoad urlB
          (deliverSuccess 0 respA (readerOnLoad urlA initialConfig)))).st.phase =
      Phase.Failed ∧
    (deliverFailure 0 (AjaxFailure.http 500 ResponseBody.unparsable)
        (readerOnLoad urlB
          (deliverSuccess 0 respA (readerOnLoad urlA initialConfig)))).st.processedImageBlob =
      some respA := by decide

/-- C2 as amended: a new acquisition replaces the original, clears the
error alert and moves to `Processing`, but carries the prior result fields
over unchanged; a `Processing` to `Failed` transition also leaves the
result fields unchanged (absent only when already absent). -/
theorem acquisition_carryover_spec (dataUrl : String) (c : Config) (i : Nat) (f : AjaxFailure) :
    (readerOnLoad dataUrl c).st.currentImageData = some dataUrl ∧
    (readerOnLoad dataUrl c).st.phase = Phase.Processing ∧
    (readerOnLoad dataUrl c).errorAlert = none ∧
    (readerOnLoad dataUrl c).st.processedImageBlob = c.st.processedImageBlob ∧
    (readerOnLoad dataUrl c).st.processedImageBase64 = c.st.processedImageBase64 ∧
    (deliverFailure i f c).st.processedImageBlob = c.st.processedImageBlob ∧
    (deliverFailure i f c).st.processedImageBase64 = c.st.processedImageBase64 :=
  ⟨rfl, rfl, rfl, rfl, rfl, rfl, rfl⟩

/-- C3 counterexample: exporting a JPEG source on a platform that accepts
every format makes exactly one clipboard attempt, tagged `image/png` — no
write tagged `image/jpeg` is ever attempted, because `copyImageAsFile`
re-encodes JPEG to PNG before the first write. -/
theorem jpeg_export_first_attempt_png :
    (copyImageAsFile pfAcceptAll { type := "image/jpeg", bytes := 42 }
        ("processed") ("T")).attempts = [("image/png" : String)] ∧
    ¬ (("image/jpeg" : String) ∈
      (copyImageAsFile pfAcceptAll { type := "image/jpeg", bytes := 42 }
        ("processed") ("T")).attempts) ∧
    (copyImageAsFile pfAcceptAll { type := "image/jpeg", bytes := 42 }
        ("processed") ("T")).written = some ("image/png") := by decide

/-- C3 as amended: the first clipboard attempt is tagged with the MIME
type after JPEG normalisation — `image/png` for a JPEG source (when the
pre-conversion succeeds), the source's own type otherwise; and the
in-chain PNG re-encode attempt happens only after that first attempt
fails and only when the attempted type is not already `image/png`. -/
theorem export_first_attempt_spec (pf : Platform) (blob : Blob) (it ts : String) :
    ((blob.type = "image/jpeg" ∨ blob.type = "image/jpg") → pf.pngEncodeOk = true →
      (copyImageAsFile pf blob it ts).attempts.head? = some ("image/png")) ∧
    (¬ (blob.type = "image/jpeg" ∨ blob.type = "image/jpg") →
      (copyImageAsFile pf blob it ts).attempts.head? = some blob.type ∧
      (("image/png" : String) ∈ (copyImageAsFile pf blob it ts).attempts.tail →
        pf.accepts blob.type = false ∧ blob.type ≠ "image/png")) := by
  constructor
  · intro hj henc
    rw [(copy_jpeg pf blob it ts hj henc).1]
    rfl
  · intro hj
    obtain ⟨hat, -, -⟩ := copy_nonjpeg pf blob it ts hj
    rw [hat, write_self_cases]
    by_cases hacc : pf.accepts blob.type
    · rw [if_pos hacc]
      exact ⟨rfl, fun hmem => absurd hmem (List.not_mem_nil _)⟩
    · rw [if_neg hacc]
      have hacc' : pf.accepts blob.type = false := by simpa using hacc
      by_cases hpng : blob.type = "image/png"
      · rw [if_pos hpng]
        exact ⟨rfl, fun hmem => absurd hmem (List.not_mem_nil _)⟩
      · rw [if_neg hpng]
        by_cases henc : pf.pngEncodeOk
        · rw [if_pos henc]
          by_cases haccp : pf.accepts ("image/png")
          · rw [if_pos haccp]
            exact ⟨rfl, fun _ => ⟨hacc', hpng⟩⟩
          · rw [if_neg haccp]
            exact ⟨rfl, fun _ => ⟨hacc', hpng⟩⟩
        · rw [if_neg henc]
          exact ⟨rfl, fun hmem => absurd hmem (List.not_mem_nil _)⟩

/-- C3 witness: for the JPEG source the first (and only) attempt is
PNG-tagged; for a WebP source on a PNG-only platform the first attempt is
WebP-tagged and the PNG attempt in the tail certifies that the native
attempt failed on a non-PNG source. -/
theorem export_first_attempt_spec_witness :
    (copyImageAsFile pfAcceptAll { type := "image/jpeg", bytes := 42 }
        ("processed") ("T")).attempts.head? = some ("image/png") ∧
    (copyImageAsFile pfOnlyPng { type := "image/webp", bytes := 9 }
        ("processed") ("T")).attempts.head? = some ("image/webp") ∧
    (pfOnlyPng.accepts ("image/webp") = false ∧ ("image/webp" : String) ≠ "image/png") := by
  refine ⟨?_, ?_, ?_⟩
  · exact (export_first_attempt_spec pfAcceptAll { type := "image/jpeg", bytes := 42 }
      ("processed") ("T")).1 (Or.inl rfl) rfl
  · exact ((export_first_attempt_spec pfOnlyPng { type := "image/webp", bytes := 9 }
      ("processed") ("T")).2 (by decide)).1
  · exact ((export_first_attempt_spec pfOnlyPng { type := "image/webp", bytes := 9 }
      ("processed") ("T")).2 (by decide)).2 (by decide)

/-- C4 counterexample: a WebP source on a platform that rejects WebP but
accepts PNG is rescued by the in-chain PNG fallback, yet the reported file
name — fixed before the write chain runs — still carries `.webp`: the
reported extension does not match the format actually written. -/
theorem png_fallback_reports_source_extension :
    (copyImageAsFile pfOnlyPng { type := "image/webp", bytes := 9 }
        ("processed") ("T")).written = some ("image/png") ∧
    (copyImageAsFile pfOnlyPng { type := "image/webp", bytes := 9 }
        ("processed") ("T")).filename = some ("docuscan_enhanced_T.webp") ∧
    ("docuscan_enhanced_T.webp" : String) ≠ "docuscan_enhanced_T.png" := by decide

/-- C4 as amended: the reported extension always matches the
first-attempted (post-JPEG-normalisation) MIME type, so it matches the
format actually written whenever the native attempt is the one that
succeeds; and for a JPEG source every successful export reports `.png`.
When the in-chain PNG fallback rescues a non-JPEG source, the name keeps
the source-derived extension (the counterexample). -/
theorem export_extension_spec (pf : Platform) (blob : Blob) (it ts : String) :
    (∀ m : String, (copyImageAsFile pf blob it ts).written = some m →
      (copyImageAsFile pf blob it ts).attempts.head? = some m →
      (copyImageAsFile pf blob it ts).filename =
        some (stemOf it ++ "_" ++ ts ++ "." ++ extensionOf m)) ∧
    ((blob.type = "image/jpeg" ∨ blob.type = "image/jpg") →
      ∀ fn : String, (copyImageAsFile pf blob it ts).filename = some fn →
        fn = stemOf it ++ "_" ++ ts ++ "." ++ extensionOf ("image/png")) := by
  by_cases hj : blob.type = "image/jpeg" ∨ blob.type = "image/jpg"
  · by_cases henc : pf.pngEncodeOk
    · obtain ⟨hat, hwr, hfn⟩ := copy_jpeg pf blob it ts hj henc
      constructor
      · intro m hm hh
        rw [hwr] at hm
        by_cases haccp : pf.accepts ("image/png")
        · rw [if_pos haccp] at hm
          cases hm
          rw [hfn, if_pos haccp]
        · rw [if_neg haccp] at hm
          cases hm
      · intro _ fn hfn'
        rw [hfn] at hfn'
        by_cases haccp : pf.accepts ("image/png")
        · rw [if_pos haccp] at hfn'
          cases hfn'
          rfl
        · rw [if_neg haccp] at hfn'
          cases hfn'
    · have hfail := copy_jpeg_fail pf blob it ts hj (by simpa using henc)
      rw [hfail]
      exact ⟨fun m hm _ => Option.noConfusion hm, fun _ fn hfn => Option.noConfusion hfn⟩
  · obtain ⟨hat, hwr, hfn⟩ := copy_nonjpeg pf blob it ts hj
    refine ⟨?_, fun hj' => absurd hj' hj⟩
    intro m hm hh
    rw [hat, write_self_cases] at hh
    rw [hwr, write_self_cases] at hm
    rw [hfn, write_self_cases]
    by_cases hacc : pf.accepts blob.type
    · rw [if_pos hacc] at hm hh ⊢
      simp only [List.head?] at hh
      cases hh
      cases hm
      rfl
    · rw [if_neg hacc] at hm hh ⊢
      by_cases hpng : blob.type = "image/png"
      · rw [if_pos hpng] at hm hh ⊢
        cases hm
      · rw [if_neg hpng] at hm hh ⊢
        by_cases henc : pf.pngEncodeOk
        · rw [if_pos henc] at hm hh ⊢
          by_cases haccp : pf.accepts ("image/png")
          · rw [if_pos haccp] at hm hh ⊢
            simp only [List.head?] at hh
            cases hm
            injection hh with hh2
            exact absurd hh2 hpng
          · rw [if_neg haccp] at hm hh ⊢
            cases hm
        · rw [if_neg henc] at hm hh ⊢
          cases hm

/-- C4 witness: a JPEG source exported on the PNG-only platform succeeds
and reports a name ending in `.png`, as the amended claim requires. -/
theorem export_extension_spec_witness :
    (copyImageAsFile pfOnlyPng { type := "image/jpeg", bytes := 9 }
        ("original") ("T")).filename = some ("docuscan_original_T.png") ∧
    ("docuscan_original_T.png" : String) =
      stemOf ("original") ++ "_" ++ "T" ++ "." ++ extensionOf ("image/png") := by
  refine ⟨by decide, ?_⟩
  exact (export_extension_spec pfOnlyPng { type := "image/jpeg", bytes := 9 }
    ("original") ("T")).2 (Or.inl rfl) ("docuscan_original_T.png") (by decide)

/-- C5 counterexample: a 1 TiB candidate exceeds `maxSize`, is rejected
before any network call, but its rejection message reads
`图片文件过大：1 undefined，…` — the unit component is the out-of-range
placeholder, not one of the claimed binary units B/KB/MB/GB. -/
theorem tooLarge_unit_overflow_counterexample :
    maxSize < 1024 ^ 4 ∧
    (handleImageFile hugeFile initialConfig).1.errorAlert =
      some ("图片文件过大：1 undefined，请选择小于10MB的图片") ∧
    (handleImageFile hugeFile initialConfig).2 = AcquireOutcome.tooLarge ∧
    ¬ (("undefined" : String) ∈ sizeUnits) := by
  have hsz : maxSize < 1024 ^ 4 := by decide
  have h := handleImageFile_tooLarge hugeFile initialConfig (by decide) hsz
  have hmsg : tooLargeMsg (1024 ^ 4) = "图片文件过大：1 undefined，请选择小于10MB的图片" := by
    rw [tooLargeMsg.eq_def, format_tib]
    decide
  refine ⟨hsz, ?_, ?_, by decide⟩
  · rw [h]
    show some (tooLargeMsg (1024 ^ 4)) = _
    rw [hmsg]
  · rw [h]

/-- C5 as amended: every oversize candidate is rejected with `TooLarge`
before any network call, the session and in-flight list are untouched, and
the rejection message embeds `formatFileSize` of the actual size — whose
unit is a valid binary unit whenever the size is below 1024^4 (above that
the unit degenerates to the placeholder, see the counterexample). -/
theorem tooLarge_rejection_spec (f : JsFile) (c : Config)
    (himg : jsStartsWith f.type ("image/") = true) (hsz : maxSize < f.size) :
    handleImageFile f c = (showErrorC (tooLargeMsg f.size) c, AcquireOutcome.tooLarge) ∧
    (showErrorC (tooLargeMsg f.size) c).st = c.st ∧
    (showErrorC (tooLargeMsg f.size) c).inflight = c.inflight ∧
    tooLargeMsg f.size = "图片文件过大：" ++ formatFileSize f.size ++ "，请选择小于10MB的图片" ∧
    (f.size < 1024 ^ 4 → unitComponent f.size ∈ sizeUnits) := by
  refine ⟨handleImageFile_tooLarge f c himg hsz, rfl, rfl, rfl, ?_⟩
  intro h4
  exact unitComponent_valid f.size (Nat.lt_trans (by decide) hsz) h4

/-- C5 witness: a 12 MiB PNG is rejected with the `12 MB` message, the
session untouched and the unit valid. -/
theorem tooLarge_rejection_spec_witness :
    jsStartsWith ("image/png") ("image/") = true ∧ maxSize < 12582912 ∧
    handleImageFile { type := "image/png", size := 12582912, name := "b.png" } initialConfig =
      (showErrorC (tooLargeMsg 12582912) initialConfig, AcquireOutcome.tooLarge) ∧
    tooLargeMsg 12582912 = "图片文件过大：12 MB，请选择小于10MB的图片" ∧
    unitComponent 12582912 ∈ sizeUnits := by
  refine ⟨by decide, by decide, ?_, ?_, ?_⟩
  · exact (tooLarge_rejection_spec { type := "image/png", size := 12582912, name := "b.png" }
      initialConfig (by decide) (by decide)).1
  · rw [tooLargeMsg.eq_def, format_12582912]
    decide
  · exact (tooLarge_rejection_spec { type := "image/png", size := 12582912, name := "b.png" }
      initialConfig (by decide) (by decide)).2.2.2.2 (by decide)

/-- C6 counterexample: a pasted clipboard item of type `text/plain` (no
`image` substring) is skipped silently by the paste handler — no
`WrongType` rejection is surfaced, `acquire` is never entered, and the
configuration is bit-for-bit unchanged — contradicting the claim that
every pasted non-`image/` source is rejected with `WrongType`. -/
theorem paste_nonimage_silently_ignored :
    pasteHandler [plainItem] initialConfig = (initialConfig, none) ∧
    (pasteHandler [plainItem] initialConfig).1.errorAlert = none ∧
    jsStartsWith ("text/plain") ("image/") = false := by decide

/-- C6 as amended: every candidate that reaches acquisition with a
declared type not starting with `image/` is rejected with `WrongType` and
the session and in-flight list stay untouched; a dropped first file of
such a type is likewise rejected (with the drop-specific message) before
acquisition.  Pasted items without the `image` substring never reach
acquisition at all (the counterexample). -/
theorem wrongType_rejection_spec (f : JsFile) (fs : List JsFile) (c : Config)
    (h : jsStartsWith f.type ("image/") = false) :
    handleImageFile f c = (showErrorC wrongTypeMsg c, AcquireOutcome.wrongType) ∧
    (showErrorC wrongTypeMsg c).st = c.st ∧
    (showErrorC wrongTypeMsg c).inflight = c.inflight ∧
    dropHandler (f :: fs) c = (showErrorC dropWrongTypeMsg c, none) := by
  refine ⟨handleImageFile_wrongType f c h, rfl, rfl, ?_⟩
  rw [dropHandler.eq_def]
  simp [h]

/-- C6 witness: the plain-text file is rejected with `WrongType` by
acquisition and with the drop message by the drop handler, the session
untouched. -/
theorem wrongType_rejection_spec_witness :
    jsStartsWith ("text/plain") ("image/") = false ∧
    handleImageFile plainFile initialConfig =
      (showErrorC wrongTypeMsg initialConfig, AcquireOutcome.wrongType) ∧
    dropHandler [plainFile] initialConfig = (showErrorC dropWrongTypeMsg initialConfig, none) := by
  refine ⟨by decide, ?_, ?_⟩
  · exact (wrongType_rejection_spec plainFile [] initialConfig (by decide)).1
  · exact (wrongType_rejection_spec plainFile [] initialConfig (by decide)).2.2.2

/-- C7: every request `processImage` issues carries the fixed 60000 ms
timeout option; a timeout resolution moves the session to `Failed` with
the timeout message, removes the request from the in-flight list, and
issues no replacement request (no automatic retry). -/
theorem timeout_no_retry_spec (c : Config) (i : Nat) (h : i < c.inflight.length) :
    (∀ r ∈ (processImage c).inflight, r ∈ c.inflight ∨ r.timeoutMs = 60000) ∧
    (deliverFailure i AjaxFailure.timeout c).st.phase = Phase.Failed ∧
    (deliverFailure i AjaxFailure.timeout c).errorAlert = some timeoutMsg ∧
    (deliverFailure i AjaxFailure.timeout c).inflight = c.inflight.eraseIdx i ∧
    (deliverFailure i AjaxFailure.timeout c).inflight.length < c.inflight.length := by
  refine ⟨?_, rfl, rfl, rfl, ?_⟩
  · intro r hr
    rw [processImage.eq_def] at hr
    cases hm : c.st.currentImageData with
    | none => rw [hm] at hr; exact Or.inl hr
    | some img =>
        rw [hm] at hr
        simp only [List.mem_append] at hr
        rcases hr with hr | hr
        · exact Or.inl hr
        · right
          simp only [List.mem_singleton] at hr
          rw [hr]
  · show (c.inflight.eraseIdx i).length < c.inflight.length
    rw [List.length_eraseIdx, if_pos h]
    omega

/-- C7 witness: on a configuration with one outstanding request, a
timeout resolution yields `Failed` with the timeout message and shrinks
the in-flight list without issuing a replacement. -/
theorem timeout_no_retry_spec_witness :
    0 < procConfig.inflight.length ∧
    (deliverFailure 0 AjaxFailure.timeout procConfig).st.phase = Phase.Failed ∧
    (deliverFailure 0 AjaxFailure.timeout procConfig).errorAlert = some timeoutMsg ∧
    (deliverFailure 0 AjaxFailure.timeout procConfig).inflight.length <
      procConfig.inflight.length := by
  refine ⟨by decide, ?_, ?_, ?_⟩
  · exact (timeout_no_retry_spec procConfig 0 (by decide)).2.1
  · exact (timeout_no_retry_spec procConfig 0 (by decide)).2.2.1
  · exact (timeout_no_retry_spec procConfig 0 (by decide)).2.2.2.2

/-- C8: from any configuration — in particular from any of the phases
`Loaded`, `Processing`, `Result`, `Failed` — `resetTool` yields `Idle`
with the original, both result fields and the error alert all absent. -/
theorem reset_to_idle_spec (c : Config) :
    (resetTool c).st.phase = Phase.Idle ∧
    (resetTool c).st.currentImageData = none ∧
    (resetTool c).st.processedImageBlob = none ∧
    (resetTool c).st.processedImageBase64 = none ∧
    (resetTool c).errorAlert = none :=
  ⟨rfl, rfl, rfl, rfl, rfl⟩

/-- C9: acquisition itself issues no remote call — an accepted file leaves
the configuration untouched while the read starts — and the decode
resolution (`FileReader.onload`) stores the new original, passes through
`Loaded`, and invokes `processImage` exactly once, appending exactly one
request carrying the new original. -/
theorem auto_process_spec (f : JsFile) (c : Config) (dataUrl : String)
    (h1 : jsStartsWith f.type ("image/") = true) (h2 : f.size ≤ maxSize) :
    handleImageFile f c = (c, AcquireOutcome.readStarted) ∧
    readerOnLoad dataUrl c =
      processImage (showOriginalImageStep
        (hideAlertsC { c with st := { c.st with currentImageData := some dataUrl } })) ∧
    (showOriginalImageStep
        (hideAlertsC { c with st := { c.st with currentImageData := some dataUrl } })).st.phase =
      Phase.Loaded ∧
    (readerOnLoad dataUrl c).inflight = c.inflight ++ [{ img := dataUrl, timeoutMs := 60000 }] ∧
    (readerOnLoad dataUrl c).st.currentImageData = some dataUrl ∧
    (readerOnLoad dataUrl c).st.phase = Phase.Processing := by
  refine ⟨?_, rfl, rfl, rfl, rfl, rfl⟩
  rw [handleImageFile.eq_def, h1]
  simp only [Bool.not_true, if_neg]
  rw [if_neg (Nat.not_lt.2 h2)]
  simp

/-- C9 witness: a small PNG is accepted without any request being issued,
and the decode resolution issues exactly the one auto-process request for
it. -/
theorem auto_process_spec_witness :
    jsStartsWith ("image/png") ("image/") = true ∧ 2048 ≤ maxSize ∧
    handleImageFile { type := "image/png", size := 2048, name := "a.png" } initialConfig =
      (initialConfig, AcquireOutcome.readStarted) ∧
    (readerOnLoad urlA initialConfig).inflight = [{ img := urlA, timeoutMs := 60000 }] ∧
    (readerOnLoad urlA initialConfig).st.phase = Phase.Processing := by
  refine ⟨by decide, by decide, ?_, ?_, ?_⟩
  · exact (auto_process_spec { type := "image/png", size := 2048, name := "a.png" }
      initialConfig urlA (by decide) (by decide)).1
  · have h := (auto_process_spec { type := "image/png", size := 2048, name := "a.png" }
      initialConfig urlA (by decide) (by decide)).2.2.2.1
    simpa using h
  · exact (auto_process_spec { type := "image/png", size := 2048, name := "a.png" }
      initialConfig urlA (by decide) (by decide)).2.2.2.2.2

/-- C10: for every byte count of at least 1024^4 the formatter's unit
lookup runs past the end of the four-element unit list, so the rendered
unit is the out-of-range placeholder `undefined` rather than a valid
unit, while every positive count below 1024^4 gets a valid unit. -/
theorem format_unit_overflow_spec (b : Nat) (h : 1024 ^ 4 ≤ b) :
    sizeUnits.get? (unitIndex b) = none ∧
    unitComponent b = "undefined" ∧
    ¬ (("undefined" : String) ∈ sizeUnits) ∧
    formatFileSize b = renderTenths (tenthsValue b) ++ " " ++ "undefined" ∧
    (∀ n : Nat, 0 < n → n < 1024 ^ 4 → unitComponent n ∈ sizeUnits) := by
  obtain ⟨h1, h2, h3⟩ := units_overflow b h
  exact ⟨h1, h2, by decide, h3, unitComponent_valid⟩

/-- C10 witness: at exactly 1 TiB the formatter renders `1 undefined`. -/
theorem format_unit_overflow_spec_witness :
    1024 ^ 4 ≤ 1024 ^ 4 ∧ unitComponent (1024 ^ 4) = "undefined" ∧
    formatFileSize (1024 ^ 4) = "1 undefined" := by
  refine ⟨le_refl _, (format_unit_overflow_spec (1024 ^ 4) (le_refl _)).2.1, ?_⟩
  rw [(format_unit_overflow_spec (1024 ^ 4) (le_refl _)).2.2.2.1, tenths_tib]
  decide

end DocuScan
